import Mathlib

/-
  Verification development for the VolleyBratansStream relay backend.

  The definitions below are shallow embeddings of the Go sources:
    * the WebSocket relay hub (relay/main.go, Relay.Run and its helpers),
    * the versioned matchday/scout stores (relay/matchday_store.go),
    * the session store, rate limiter and bot filter (services package),
    * the login HTTP handler (handlers package, AuthHandler.HandleLogin).

  Machine integers are modelled as Int/Nat (no overflow is reachable in the
  claims considered), wall-clock instants as Int (seconds), Go strings as
  Lean String, and Go maps as association lists or total functions with the
  zero value standing for an absent key (Go map reads return the zero value
  for missing keys, which for slices is the empty slice).
-/

namespace VBStream

/-! Relay hub (relay/main.go).  `Relay.Run` is an event loop consuming three
channels; we embed each `select` case as a pure step function on the hub
state.  A peer's `Send` channel of capacity 256 is embedded as a `List String`
of queued frames; the non-blocking `select { case ch <- m: default: }` send is
`trySend` below (append when below capacity, drop otherwise), which is what
makes every step total: the hub never waits on a peer. -/

inductive ClientType where
  | moblin
  | browser
deriving DecidableEq, Repr

structure Client where
  id : Nat
  type : ClientType
  send : List String
  authorized : Bool
deriving DecidableEq, Repr

/-- Capacity of a client's Send channel (`make(chan []byte, 256)`). -/
def queueCap : Nat := 256

/-- Non-blocking send: enqueue if the buffered channel has room, else drop. -/
def trySend (q : List String) (m : String) : List String :=
  if q.length < queueCap then q ++ [m] else q

/-- Hub state: the registry of `Relay` (clients map, moblin slot, browsers
map).  Browser map entries are represented by their ids; the queue contents
live in the unique `clients` entry with that id. -/
structure Relay where
  clients : List Client
  moblin : Option Nat
  browsers : List Nat
deriving DecidableEq, Repr

/-- `json.Marshal` of a `Message` whose only non-zero field is `Type`
(all other fields are `omitempty`). -/
def mkFrame (t : String) : String := "\x7b\"type\":\"" ++ t ++ "\"\x7d"

/-- `Relay.notifyBrowsers`: marshal the message and try-send it to every
client registered in the browsers map. -/
def Relay.notifyBrowsers (r : Relay) (msgType : String) : Relay :=
  let data := mkFrame msgType
  { r with clients := r.clients.map fun c =>
      if r.browsers.contains c.id then { c with send := trySend c.send data } else c }

/-- Go map assignment `clients[c.ID] = c`: replace the entry with that id,
or append a fresh one. -/
def upsertClient (cs : List Client) (c : Client) : List Client :=
  if cs.any fun d => d.id = c.id then
    cs.map fun d => if d.id = c.id then c else d
  else cs ++ [c]

/-- Go map assignment `browsers[id] = c` restricted to the key set. -/
def insertId (ids : List Nat) (i : Nat) : List Nat :=
  if ids.contains i then ids else ids ++ [i]

/-- The `case client := <-r.register:` branch of `Relay.Run`: insert into the
registry; a moblin-typed client takes the moblin slot and all browsers are
notified with a `moblin_connected` frame; a browser is added to the browser
map. -/
def Relay.runRegister (r : Relay) (c : Client) : Relay :=
  let r1 : Relay := { r with clients := upsertClient r.clients c }
  if c.type = ClientType.moblin then
    Relay.notifyBrowsers { r1 with moblin := some c.id } "moblin_connected"
  else
    { r1 with browsers := insertId r1.browsers c.id }

/-- The `case client := <-r.unregister:` branch of `Relay.Run`: if the client
id is registered, remove it (and close its Send channel, which disappears
with the registry entry here); when the departing client has type moblin the
slot is set to nil and browsers are notified with `moblin_disconnected` —
the code never compares the departing client against the current slot
occupant.  Otherwise the id is removed from the browsers map. -/
def Relay.runUnregister (r : Relay) (cid : Nat) (ctype : ClientType) : Relay :=
  if r.clients.any fun c => c.id = cid then
    let r1 : Relay := { r with clients := r.clients.filter fun c => c.id ≠ cid }
    if ctype = ClientType.moblin then
      Relay.notifyBrowsers { r1 with moblin := none } "moblin_disconnected"
    else
      { r1 with browsers := r1.browsers.filter fun i => i ≠ cid }
  else r

/-- The `case message := <-r.broadcast:` branch of `Relay.Run`: try-send the
frame to every registered client, dropping per-peer on a full queue. -/
def Relay.runBroadcast (r : Relay) (message : String) : Relay :=
  { r with clients := r.clients.map fun c => { c with send := trySend c.send message } }

/-! Concrete scenario used by several counterexamples: browser `3` is
connected, controller `1` registers, then controller `2` registers and takes
the slot (scenario S4 of the spec). -/

def clientC1 : Client := ⟨1, ClientType.moblin, [], true⟩

def clientC2 : Client := ⟨2, ClientType.moblin, [], true⟩

def clientB3 : Client := ⟨3, ClientType.browser, [], true⟩

def relay0 : Relay := ⟨[], none, []⟩

def relayS4 : Relay :=
  Relay.runRegister (Relay.runRegister (Relay.runRegister relay0 clientB3) clientC1) clientC2

/-- Claim C1, counterexample.  In the exact scenario of the claim — controller
`2` has registered and replaced controller `1` in the slot — processing
controller `1`'s unregister does NOT leave the slot occupied by `2`: the code
clears the slot to `none` and enqueues a `moblin_disconnected` frame to the
connected browser, because `Relay.Run` only tests the departing client's
type, never whether it still occupies the slot. -/
theorem claimC1_counterexample :
    relayS4.moblin = some 2 ∧
    (Relay.runUnregister relayS4 1 ClientType.moblin).moblin ≠ some 2 ∧
    (Relay.runUnregister relayS4 1 ClientType.moblin).clients.map Client.send
      = [[mkFrame "moblin_connected", mkFrame "moblin_connected",
          mkFrame "moblin_disconnected"], []] := by
  refine ⟨by decide, by decide, by decide⟩

/-- Claim C1, amended.  Processing an unregister event for any registered
client of kind moblin unconditionally clears the moblin slot and enqueues the
`moblin_disconnected` frame to every client in the browsers map (dropping it
for a full queue) — even when a later controller occupies the slot. -/
theorem unregister_moblin_always_clears_and_notifies (r : Relay) (cid : Nat)
    (hreg : (r.clients.any fun c => c.id = cid) = true) :
    (Relay.runUnregister r cid ClientType.moblin).moblin = none ∧
    (Relay.runUnregister r cid ClientType.moblin).clients
      = (r.clients.filter fun c => c.id ≠ cid).map fun c =>
          if r.browsers.contains c.id then
            { c with send := trySend c.send (mkFrame "moblin_disconnected") }
          else c := by
  unfold Relay.runUnregister Relay.notifyBrowsers
  rw [if_pos hreg]
  simp

/-- Witness for `unregister_moblin_always_clears_and_notifies` at the
concrete S4 scenario. -/
theorem unregister_moblin_always_clears_and_notifies_witness :
    ((relayS4.clients.any fun c => c.id = 1) = true) ∧
    (Relay.runUnregister relayS4 1 ClientType.moblin).moblin = none :=
  ⟨by decide, (unregister_moblin_always_clears_and_notifies relayS4 1 (by decide)).1⟩

/-- Claim C2.  A broadcast event is a total function of the hub state: every
registered client, moblin or browser, independently either gets the frame
appended to its send queue (when the queue holds fewer than 256 frames) or
has the frame dropped for it alone (full queue); the registry, slot and
browsers map are untouched, and the step never waits on any peer. -/
theorem broadcast_enqueues_or_drops_per_peer (r : Relay) (m : String) :
    (Relay.runBroadcast r m).clients
      = r.clients.map (fun c =>
          if c.send.length < queueCap then { c with send := c.send ++ [m] } else c) ∧
    (Relay.runBroadcast r m).moblin = r.moblin ∧
    (Relay.runBroadcast r m).browsers = r.browsers := by
  refine ⟨?_, rfl, rfl⟩
  unfold Relay.runBroadcast
  show r.clients.map _ = r.clients.map _
  apply List.map_congr_left
  intro c _
  unfold trySend
  split <;> rfl

/-- Claim C5, counterexample.  When a controller registers into a hub with
one connected browser, the frame enqueued to the browser is exactly
`{"type":"moblin_connected"}`, not `{"type":"controller_connected"}`; the
relay never synthesises the `controller_*` type strings. -/
theorem claimC5_counterexample :
    (Relay.runRegister (Relay.runRegister relay0 clientB3) clientC1).clients.map Client.send
      = [[mkFrame "moblin_connected"], []] ∧
    mkFrame "moblin_connected" ≠ mkFrame "controller_connected" ∧
    mkFrame "moblin_disconnected" ≠ mkFrame "controller_disconnected" := by
  refine ⟨by decide, by decide, by decide⟩

/-- Claim C5, amended.  Whenever the moblin slot becomes occupied (a client
of kind moblin registers) every client in the browsers map is try-sent the
frame `{"type":"moblin_connected"}`, and whenever the slot empties (a
registered moblin-kind client unregisters) every browser is try-sent
`{"type":"moblin_disconnected"}`; these — not `controller_connected` /
`controller_disconnected` — are the relay-synthesised connection-lifecycle
type strings. -/
theorem lifecycle_frames_use_moblin_type_strings (r : Relay) (c : Client)
    (hm : c.type = ClientType.moblin) :
    ((Relay.runRegister r c).moblin = some c.id ∧
     (Relay.runRegister r c).clients
       = (upsertClient r.clients c).map fun d =>
           if r.browsers.contains d.id then
             { d with send := trySend d.send (mkFrame "moblin_connected") }
           else d) ∧
    ∀ cid, (r.clients.any fun d => d.id = cid) = true →
      ((Relay.runUnregister r cid ClientType.moblin).moblin = none ∧
       (Relay.runUnregister r cid ClientType.moblin).clients
         = (r.clients.filter fun d => d.id ≠ cid).map fun d =>
             if r.browsers.contains d.id then
               { d with send := trySend d.send (mkFrame "moblin_disconnected") }
             else d) := by
  constructor
  · unfold Relay.runRegister Relay.notifyBrowsers
    rw [if_pos hm]
    simp
  · intro cid hreg
    unfold Relay.runUnregister Relay.notifyBrowsers
    rw [if_pos hreg]
    simp

/-- Witness for `lifecycle_frames_use_moblin_type_strings` at the concrete
register step of controller `1` into a hub holding browser `3`. -/
theorem lifecycle_frames_use_moblin_type_strings_witness :
    clientC1.type = ClientType.moblin ∧
    (Relay.runRegister (Relay.runRegister relay0 clientB3) clientC1).moblin = some 1 :=
  ⟨by decide,
   (lifecycle_frames_use_moblin_type_strings
      (Relay.runRegister relay0 clientB3) clientC1 (by decide)).1.1⟩

/-! Versioned state stores (relay/matchday_store.go, stores package).
`UpdateState` runs under the store lock; we embed the in-memory transition,
with the wall-clock RFC-3339 UTC string passed in as `nowUTC`.  The handler
returns `GetState()` right after a successful update, i.e. exactly the state
produced here. -/

structure MatchdayState where
  version : Int
  lastUpdated : String
  homeTeam : String
  awayTeam : String
  date : String
  dvvLink : String
  matchID : String
deriving DecidableEq, Repr

inductive NumberVal where
  | num (n : Int)
  | str (s : String)
  | null
deriving DecidableEq, Repr

structure Player where
  id : String
  name : String
  number : NumberVal
  position : String
  active : Bool
  scores : List (String × List Int)
deriving DecidableEq, Repr

structure ScoutState where
  version : Int
  lastUpdated : String
  matchName : String
  matchDate : String
  players : List Player
deriving DecidableEq, Repr

/-- `MatchdayStore.UpdateState`: overwrite the caller-supplied document's
version with `previous.version + 1` and its `lastUpdated` with the current
UTC time, then store it. -/
def MatchdayStore.updateState (cur newState : MatchdayState) (nowUTC : String) :
    MatchdayState :=
  { newState with version := cur.version + 1, lastUpdated := nowUTC }

/-- `ScoutStore.UpdateState`: identical machinery on the scout payload. -/
def ScoutStore.updateState (cur newState : ScoutState) (nowUTC : String) : ScoutState :=
  { newState with version := cur.version + 1, lastUpdated := nowUTC }

/-- A sequence of successful matchday updates, each with its own caller
document and timestamp. -/
def runMatchdayUpdates (cur : MatchdayState) : List (MatchdayState × String) → MatchdayState
  | [] => cur
  | (d, now) :: rest => runMatchdayUpdates (MatchdayStore.updateState cur d now) rest

/-- A sequence of successful scout updates. -/
def runScoutUpdates (cur : ScoutState) : List (ScoutState × String) → ScoutState
  | [] => cur
  | (d, now) :: rest => runScoutUpdates (ScoutStore.updateState cur d now) rest

lemma runMatchdayUpdates_version (l : List (MatchdayState × String)) :
    ∀ cur : MatchdayState, (runMatchdayUpdates cur l).version = cur.version + l.length := by
  induction l with
  | nil => intro cur; simp [runMatchdayUpdates]
  | cons p rest ih =>
      intro cur
      obtain ⟨d, now⟩ := p
      rw [runMatchdayUpdates, ih]
      simp [MatchdayStore.updateState]
      ring

lemma runScoutUpdates_version (l : List (ScoutState × String)) :
    ∀ cur : ScoutState, (runScoutUpdates cur l).version = cur.version + l.length := by
  induction l with
  | nil => intro cur; simp [runScoutUpdates]
  | cons p rest ih =>
      intro cur
      obtain ⟨d, now⟩ := p
      rw [runScoutUpdates, ih]
      simp [ScoutStore.updateState]
      ring

/-- Claim C3.  For both versioned stores, a successful update stores (and
hence returns) a document whose version is the previous stored version plus
one — whatever version the caller supplied in `d` is overwritten — and whose
`lastUpdated` is the current UTC timestamp; consequently, after any sequence
of `n` successful updates the version is exactly the initial version plus
`n`: monotonic and gapless. -/
theorem update_version_plus_one_and_gapless (cur d : MatchdayState) (now : String)
    (curS dS : ScoutState) (nowS : String)
    (l : List (MatchdayState × String)) (lS : List (ScoutState × String)) :
    (MatchdayStore.updateState cur d now).version = cur.version + 1 ∧
    (MatchdayStore.updateState cur d now).lastUpdated = now ∧
    (ScoutStore.updateState curS dS nowS).version = curS.version + 1 ∧
    (ScoutStore.updateState curS dS nowS).lastUpdated = nowS ∧
    (runMatchdayUpdates cur l).version = cur.version + l.length ∧
    (runScoutUpdates curS lS).version = curS.version + lS.length :=
  ⟨rfl, rfl, rfl, rfl, runMatchdayUpdates_version l cur, runScoutUpdates_version lS curS⟩

/-! Scout archival (`ScoutStore.ArchiveMatch`).  The store state is a nullable
pointer in Go, embedded as `Option ScoutState`; the archive-file write is
embedded as the optional `(filename, document)` pair that `ArchiveMatch`
produces.  The guard `s.state == nil || s.state.MatchName == ""` returns nil
without writing anything or touching the state. -/

/-- Characters replaced by `_` in archive filenames (`sanitizeFilename`).
The hand-rolled `replaceAll` in the source is a per-character substitution
because every invalid token is a single character. -/
def invalidFilenameChars : List Char :=
  ['/', '\\', ':', '*', '?', '"', '<', '>', '|', ' ']

def sanitizeFilename (name : String) : String :=
  String.map (fun ch => if invalidFilenameChars.contains ch then '_' else ch) name

/-- The fresh default scout document installed after an archive (also used at
store initialisation): version 1, empty match name, today's date. -/
def freshScoutState (nowUTC nowDate : String) : ScoutState :=
  ⟨1, nowUTC, "", nowDate, []⟩

/-- `ScoutStore.ArchiveMatch`: on an absent or empty-match-name state, do
nothing and succeed; otherwise write the current document to
`archive/<matchDate>_<sanitized matchName>.json` (returned as the second
component) and reset the state to the fresh default. -/
def ScoutStore.archiveMatch (st : Option ScoutState) (nowUTC nowDate : String) :
    Option ScoutState × Option (String × ScoutState) :=
  match st with
  | none => (none, none)
  | some s =>
      if s.matchName = "" then (some s, none)
      else
        (some (freshScoutState nowUTC nowDate),
         some (s.matchDate ++ "_" ++ sanitizeFilename s.matchName ++ ".json", s))

/-- Match name of a nullable scout state, with the Go nil-pointer guard
folded in (`s.state == nil || s.state.MatchName == ""`). -/
def matchNameOf : Option ScoutState → String
  | none => ""
  | some s => s.matchName

/-- Claim C9.  Archiving a scout document with an empty match name is a
no-op: nothing is written, the state is unchanged and the call succeeds; and
since an actual archive resets the match name to empty, a second archive
immediately after any archive writes nothing and leaves the state unchanged. -/
theorem archive_empty_noop_and_archive_archive_noop (st : Option ScoutState)
    (nU nD nU2 nD2 : String) :
    (matchNameOf st = "" → ScoutStore.archiveMatch st nU nD = (st, none)) ∧
    ScoutStore.archiveMatch (ScoutStore.archiveMatch st nU nD).1 nU2 nD2
      = ((ScoutStore.archiveMatch st nU nD).1, none) := by
  constructor
  · intro h
    cases st with
    | none => rfl
    | some s =>
        simp only [matchNameOf] at h
        simp [ScoutStore.archiveMatch, h]
  · cases st with
    | none => rfl
    | some s =>
        by_cases h : s.matchName = ""
        · simp [ScoutStore.archiveMatch, h]
        · simp [ScoutStore.archiveMatch, h, freshScoutState]

/-- Witness for `archive_empty_noop_and_archive_archive_noop` at a concrete
in-progress match. -/
theorem archive_empty_noop_witness :
    matchNameOf (some (freshScoutState "t0" "2024-03-15")) = "" ∧
    ScoutStore.archiveMatch (some (freshScoutState "t0" "2024-03-15")) "t1" "2024-03-16"
      = (some (freshScoutState "t0" "2024-03-15"), none) :=
  ⟨by decide,
   (archive_empty_noop_and_archive_archive_noop
      (some (freshScoutState "t0" "2024-03-15")) "t1" "2024-03-16" "t2" "2024-03-17").1
     (by decide)⟩

/-! Session store (services package).  The sessions map is embedded as an
association list; wall-clock instants as `Int`.  Go's `time.Time.After` is a
strict comparison, which is the crux of claim C8. -/

structure Session where
  id : String
  deviceHash : String
  createdAt : Int
  expiresAt : Int
  lastUsed : Int
  userAgent : String
  ip : String
deriving DecidableEq, Repr

/-- `SessionStore.Get`: `nil` when the id is absent or
`time.Now().After(session.ExpiresAt)` — i.e. strictly past the expiry. -/
def SessionStore.get (sessions : List (String × Session)) (sessionID : String)
    (now : Int) : Option Session :=
  match sessions.lookup sessionID with
  | none => none
  | some session => if session.expiresAt < now then none else some session

def exSession : Session := ⟨"a1", "h", 0, 100, 0, "ua", "10.0.0.1"⟩

/-- Claim C8, counterexample.  At the exact instant `now = expires_at` the
lookup still returns the stored record (Go's `After` is strict), whereas the
claim demands absence whenever `now ≥ expires_at`. -/
theorem claimC8_counterexample :
    SessionStore.get [("a1", exSession)] "a1" 100 = some exSession ∧
    ¬(100 < exSession.expiresAt) := by
  refine ⟨by decide, by decide⟩

/-- Claim C8, amended.  `get(id)` returns the stored record iff the id is
present and `now ≤ expires_at`; equivalently it returns absent exactly when
the id is absent or `now > expires_at` — the boundary instant
`now = expires_at` yields the record, not absence. -/
theorem sessionStore_get_iff (sessions : List (String × Session)) (sessionID : String)
    (now : Int) (s : Session) :
    SessionStore.get sessions sessionID now = some s ↔
      sessions.lookup sessionID = some s ∧ now ≤ s.expiresAt := by
  unfold SessionStore.get
  cases h : sessions.lookup sessionID with
  | none => simp
  | some t =>
      by_cases hlt : t.expiresAt < now
      · simp only [if_pos hlt]
        constructor
        · intro hcontra; exact absurd hcontra (by simp)
        · rintro ⟨hts, hle⟩
          obtain rfl : t = s := by injection hts
          omega
      · simp only [if_neg hlt, Option.some.injEq]
        constructor
        · rintro rfl; exact ⟨rfl, by omega⟩
        · rintro ⟨hts, _⟩; exact hts

/-! Bot filters.  The repository contains two: the legacy monolith `isBot`
(ten patterns) and the refactored services-package `IsBot` (six patterns —
the refactor dropped `python-requests`, `headless`, `phantom`, `selenium`).
Each Go pattern `(?i)tok` with a literal lowercase token `tok` matches a
user-agent iff `tok` occurs as a substring of the case-folded user-agent,
embedded here as a `List.IsInfix` test over lower-cased characters. -/

def botPatterns : List String :=
  ["bot", "crawler", "spider", "scraper", "curl", "wget",
   "python-requests", "headless", "phantom", "selenium"]

def servicesBotPatterns : List String :=
  ["bot", "crawler", "spider", "scraper", "curl", "wget"]

/-- Case-folded character sequence of a user-agent string. -/
def lowerChars (s : String) : List Char := s.toList.map Char.toLower

/-- Legacy monolith `isBot`: empty user-agent permitted, otherwise any of the
ten patterns matching marks a bot. -/
def isBot (userAgent : String) : Bool :=
  if userAgent = "" then false
  else botPatterns.any fun pat => decide (pat.toList <:+: lowerChars userAgent)

/-- Services-package `IsBot`: same shape, but only six patterns. -/
def IsBot (userAgent : String) : Bool :=
  if userAgent = "" then false
  else servicesBotPatterns.any fun pat => decide (pat.toList <:+: lowerChars userAgent)

/-- Claim C6, counterexample.  The user-agent `"selenium"` contains the token
`selenium` of the claimed ten-element set, yet the services bot filter
returns false for it (its pattern list has only six entries); the legacy
filter returns true, so the two filters in the repository disagree and the
claim's iff fails for `IsBot`. -/
theorem claimC6_counterexample :
    IsBot "selenium" = false ∧
    ("selenium" ∈ botPatterns ∧ "selenium".toList <:+: lowerChars "selenium") ∧
    isBot "selenium" = true := by
  refine ⟨by decide, ⟨by decide, by decide⟩, by decide⟩

/-- Claim C6, amended.  The legacy filter `isBot` returns true iff the
user-agent contains, case-insensitively, a token of the ten-element set
`{bot, crawler, spider, scraper, curl, wget, python-requests, headless,
phantom, selenium}`, while the refactored services filter `IsBot` tests only
the six-element subset `{bot, crawler, spider, scraper, curl, wget}`; both
return false (permit) on the empty user-agent. -/
theorem bot_filters_characterisation (ua : String) :
    (isBot ua = true ↔ ∃ pat ∈ botPatterns, pat.toList <:+: lowerChars ua) ∧
    (IsBot ua = true ↔ ∃ pat ∈ servicesBotPatterns, pat.toList <:+: lowerChars ua) ∧
    isBot "" = false ∧ IsBot "" = false := by
  refine ⟨?_, ?_, rfl, rfl⟩
  · by_cases h : ua = ""
    · subst h; decide
    · rw [isBot, if_neg h, List.any_eq_true]
      simp only [decide_eq_true_eq]
  · by_cases h : ua = ""
    · subst h; decide
    · rw [IsBot, if_neg h, List.any_eq_true]
      simp only [decide_eq_true_eq]

/-! Rate limiter (services package).  The `requests` map is embedded as a
total function `String → List Int` with the empty list standing for an
absent key (a Go map read of a missing key yields a nil slice, and a key
stored empty is indistinguishable from a deleted one through `Allow`).
Times are seconds. -/

/-- `RateLimiter.Allow`: drop stored timestamps at or before `now − window`,
deny when at least `limit` remain, otherwise record `now` and allow.  A
denied call does not write the filtered list back. -/
def RateLimiter.allow (rl : String → List Int) (key : String) (limit : Nat)
    (window : Int) (now : Int) : Bool × (String → List Int) :=
  let valid := (rl key).filter fun t => decide (now - window < t)
  if limit ≤ valid.length then (false, rl)
  else (true, fun k => if k = key then valid ++ [now] else rl k)

/-- The sweeper's fixed horizon: 5 minutes. -/
def cleanupWindow : Int := 5 * 60

/-- `RateLimiter.cleanup`: the periodic sweeper drops, in every bucket, the
timestamps at or before `now − 5min` (deleting a bucket that becomes empty,
which the total-function embedding renders as storing the empty list). -/
def RateLimiter.cleanup (rl : String → List Int) (now : Int) : String → List Int :=
  fun k => (rl k).filter fun t => decide (now - cleanupWindow < t)

/-- One externally observable limiter event: an `Allow` call or a sweeper
pass, each stamped with its wall-clock time. -/
inductive RLEvent where
  | allow (key : String) (limit : Nat) (window : Int) (now : Int)
  | sweep (now : Int)
deriving DecidableEq, Repr

def RLEvent.time : RLEvent → Int
  | .allow _ _ _ n => n
  | .sweep n => n

/-- Run a sequence of limiter events; returns the final map together with
the `(key, time)` pairs of the `Allow` calls that returned true. -/
def rlRun (rl : String → List Int) :
    List RLEvent → (String → List Int) × List (String × Int)
  | [] => (rl, [])
  | RLEvent.allow k l w n :: es =>
      let res := RateLimiter.allow rl k l w n
      let rest := rlRun res.2 es
      (rest.1, (if res.1 then [(k, n)] else []) ++ rest.2)
  | RLEvent.sweep n :: es => rlRun (RateLimiter.cleanup rl n) es

/-- Times of the successful `Allow` calls for one key. -/
def keySuccTimes (out : List (String × Int)) (key : String) : List Int :=
  (out.filter fun p => p.1 == key).map Prod.snd

/-- Event times are non-decreasing (real time), anchored at a start bound. -/
def timesMono : Int → List RLEvent → Prop
  | _, [] => True
  | t, e :: es => t ≤ e.time ∧ timesMono e.time es

/-- Every `Allow` event on the given key uses the fixed limit and window. -/
def keyUses (key : String) (limit : Nat) (window : Int) : List RLEvent → Prop
  | [] => True
  | RLEvent.allow k l w _ :: es =>
      (k = key → l = limit ∧ w = window) ∧ keyUses key limit window es
  | RLEvent.sweep _ :: es => keyUses key limit window es

/-- A trace refuting claim C4 as stated: key `"k"`, limit 1, window 600 s
(which exceeds the sweeper's fixed 5-minute horizon). -/
def cexEvents : List RLEvent :=
  [RLEvent.allow "k" 1 600 10, RLEvent.sweep 300, RLEvent.sweep 600,
   RLEvent.allow "k" 1 600 605]

/-- Claim C4, counterexample.  With limit 1 and window 600 s, an allowed call
at t=10 is erased by the periodic sweeper at t=600 (whose cutoff is the fixed
`now − 5min`, not `now − window`), so a second call at t=605 is allowed as
well: the rolling interval (5, 605] of length 600 contains two successful
calls, exceeding the limit of 1. -/
theorem claimC4_counterexample :
    timesMono 0 cexEvents ∧ keyUses "k" 1 600 cexEvents ∧
    ((keySuccTimes (rlRun (fun _ => []) cexEvents).2 "k").filter
        fun s => decide (5 < s) && decide (s ≤ 5 + 600)).length = 2 ∧
    ¬(((keySuccTimes (rlRun (fun _ => []) cexEvents).2 "k").filter
        fun s => decide (5 < s) && decide (s ≤ 5 + 600)).length ≤ 1) := by
  refine ⟨?_, ?_, by decide, by decide⟩
  · simp only [cexEvents, timesMono, RLEvent.time]
    norm_num
  · simp only [cexEvents, keyUses]
    simp

lemma filter_window_shift (P : List Int) (tPrev n window : Int) (h : tPrev ≤ n) :
    P.filter (fun s => decide (n - window < s))
      = (P.filter fun s => decide (tPrev - window < s)).filter
          fun s => decide (n - window < s) := by
  rw [List.filter_filter]
  apply List.filter_congr
  intro a _
  by_cases h1 : n - window < a
  · have h2 : tPrev - window < a := by omega
    simp [h1, h2]
  · simp [h1]

lemma sub_valid (P L : List Int) (tPrev n window : Int) (h : tPrev ≤ n)
    (hsub : List.Sublist (P.filter fun s => decide (tPrev - window < s)) L) :
    List.Sublist (P.filter fun s => decide (n - window < s))
      (L.filter fun s => decide (n - window < s)) := by
  rw [filter_window_shift P tPrev n window h]
  exact List.Sublist.filter _ hsub

lemma rlRun_allow_denied (rl : String → List Int) (k : String) (l : Nat) (w n : Int)
    (es : List RLEvent)
    (hd : l ≤ ((rl k).filter fun t => decide (n - w < t)).length) :
    rlRun rl (RLEvent.allow k l w n :: es) = rlRun rl es := by
  simp [rlRun, RateLimiter.allow, hd]

lemma rlRun_allow_granted (rl : String → List Int) (k : String) (l : Nat) (w n : Int)
    (es : List RLEvent)
    (hd : ¬ l ≤ ((rl k).filter fun t => decide (n - w < t)).length) :
    rlRun rl (RLEvent.allow k l w n :: es)
      = ((rlRun (fun k' => if k' = k then ((rl k).filter fun t => decide (n - w < t)) ++ [n]
                  else rl k') es).1,
         (k, n) :: (rlRun (fun k' => if k' = k then
                  ((rl k).filter fun t => decide (n - w < t)) ++ [n] else rl k') es).2) := by
  simp [rlRun, RateLimiter.allow, hd]

lemma keySuccTimes_cons_self (key : String) (n : Int) (rest : List (String × Int)) :
    keySuccTimes ((key, n) :: rest) key = n :: keySuccTimes rest key := by
  simp [keySuccTimes]

lemma keySuccTimes_cons_ne (k key : String) (n : Int) (rest : List (String × Int))
    (h : ¬ k = key) :
    keySuccTimes ((k, n) :: rest) key = keySuccTimes rest key := by
  simp [keySuccTimes, h]

/-- Core invariant of the sliding-window limiter, provided the per-key window
does not exceed the sweeper's fixed 5-minute horizon.  `P` accumulates the
times of the successful calls already made; the bucket always contains (as a
sublist) every accumulated success still inside the window, so each newly
granted call can be charged against the bucket count it saw. -/
lemma rl_invariant_bound (key : String) (limit : Nat) (window : Int)
    (hwin : window ≤ cleanupWindow) :
    ∀ (es : List RLEvent) (rl : String → List Int) (P : List Int) (tPrev : Int),
      timesMono tPrev es →
      keyUses key limit window es →
      (∀ s ∈ P, s ≤ tPrev) →
      List.Sublist (P.filter fun s => decide (tPrev - window < s)) (rl key) →
      (∀ u : Int,
        (P.filter fun s => decide (u < s) && decide (s ≤ u + window)).length ≤ limit) →
      ∀ t0 : Int,
        ((P ++ keySuccTimes (rlRun rl es).2 key).filter
            fun s => decide (t0 < s) && decide (s ≤ t0 + window)).length ≤ limit := by
  intro es
  induction es with
  | nil =>
      intro rl P tPrev _ _ _ _ hbound t0
      simp only [rlRun, keySuccTimes, List.filter_nil, List.map_nil, List.append_nil]
      exact hbound t0
  | cons e es ih =>
      intro rl P tPrev hmono hkey hPle hsub hbound t0
      cases e with
      | sweep n =>
          obtain ⟨htn, hmono'⟩ := hmono
          have hstep : rlRun rl (RLEvent.sweep n :: es)
              = rlRun (RateLimiter.cleanup rl n) es := rfl
          rw [hstep]
          refine ih (RateLimiter.cleanup rl n) P n hmono' hkey ?_ ?_ hbound t0
          · intro s hs; exact le_trans (hPle s hs) htn
          · have h1 := sub_valid P (rl key) tPrev n window htn hsub
            have h2 : List.Sublist ((rl key).filter fun s => decide (n - window < s))
                ((rl key).filter fun s => decide (n - cleanupWindow < s)) := by
              apply List.monotone_filter_right
              intro a ha
              simp only [decide_eq_true_eq] at ha ⊢
              omega
            exact h1.trans h2
      | allow k l w n =>
          obtain ⟨htn, hmono'⟩ := hmono
          obtain ⟨hkw, hkey'⟩ := hkey
          by_cases hd : l ≤ ((rl k).filter fun t => decide (n - w < t)).length
          · -- the call is denied: no success recorded, map unchanged
            rw [rlRun_allow_denied rl k l w n es hd]
            refine ih rl P n hmono' hkey' ?_ ?_ hbound t0
            · intro s hs; exact le_trans (hPle s hs) htn
            · exact (sub_valid P (rl key) tPrev n window htn hsub).trans
                (List.filter_sublist (rl key))
          · -- the call is granted
            rw [rlRun_allow_granted rl k l w n es hd]
            by_cases hk : k = key
            · have hk2 : key = k := hk.symm
              subst hk2
              have hl2 : limit = l := ((hkw rfl).1).symm
              have hw2 : window = w := ((hkw rfl).2).symm
              subst hl2
              subst hw2
              rw [keySuccTimes_cons_self]
              have hassoc :
                  P ++ n :: keySuccTimes (rlRun (fun k' => if k' = key then
                      ((rl key).filter fun t => decide (n - window < t)) ++ [n]
                    else rl k') es).2 key
                  = (P ++ [n]) ++ keySuccTimes (rlRun (fun k' => if k' = key then
                      ((rl key).filter fun t => decide (n - window < t)) ++ [n]
                    else rl k') es).2 key := by
                simp
              rw [hassoc]
              have hvalid : List.Sublist (P.filter fun s => decide (n - window < s))
                  ((rl key).filter fun s => decide (n - window < s)) :=
                sub_valid P (rl key) tPrev n window htn hsub
              refine ih _ (P ++ [n]) n hmono' hkey' ?_ ?_ ?_ t0
              · intro s hs
                rcases List.mem_append.mp hs with hs | hs
                · exact le_trans (hPle s hs) htn
                · simp only [List.mem_singleton] at hs; omega
              · show List.Sublist _ (if key = key then _ else rl key)
                rw [if_pos rfl, List.filter_append]
                exact List.Sublist.append hvalid (List.filter_sublist [n])
              · intro u
                rw [List.filter_append, List.length_append]
                by_cases hn : (decide (u < n) && decide (n ≤ u + window)) = true
                · have hsing :
                      (([n] : List Int).filter
                        fun s => decide (u < s) && decide (s ≤ u + window)).length = 1 := by
                    simp [List.filter_singleton, hn]
                  simp only [Bool.and_eq_true, decide_eq_true_eq] at hn
                  have hPwin : List.Sublist
                      (P.filter fun s => decide (u < s) && decide (s ≤ u + window))
                      (P.filter fun s => decide (n - window < s)) := by
                    apply List.monotone_filter_right
                    intro a ha
                    simp only [Bool.and_eq_true, decide_eq_true_eq] at ha ⊢
                    omega
                  have hlen : (P.filter
                      fun s => decide (u < s) && decide (s ≤ u + window)).length
                      ≤ ((rl key).filter fun t => decide (n - window < t)).length :=
                    (hPwin.trans hvalid).length_le
                  omega
                · have hempty :
                      (([n] : List Int).filter
                        fun s => decide (u < s) && decide (s ≤ u + window)).length = 0 := by
                    simp [List.filter_singleton, hn]
                  have := hbound u
                  omega
            · -- a different key: the success is filtered out, our bucket untouched
              rw [keySuccTimes_cons_ne k key n _ hk]
              have hne : ¬ key = k := fun h => hk h.symm
              refine ih _ P n hmono' hkey' ?_ ?_ hbound t0
              · intro s hs; exact le_trans (hPle s hs) htn
              · show List.Sublist _ (if key = k then _ else rl key)
                rw [if_neg hne]
                exact (sub_valid P (rl key) tPrev n window htn hsub).trans
                  (List.filter_sublist (rl key))

/-- Claim C4, amended.  For every key and fixed limit and window, in any
sequence of `Allow` calls (at non-decreasing real times) interleaved with
periodic sweeper cleanups, the number of calls returning true whose times lie
in any rolling half-open interval of length `window` is at most `limit` —
PROVIDED the window does not exceed the sweeper's fixed 5-minute horizon
(this covers both windows the program uses, 1 minute; for larger windows the
sweeper erases still-relevant timestamps and the bound fails, see the
counterexample). -/
theorem rl_rolling_window_bound (key : String) (limit : Nat) (window : Int)
    (es : List RLEvent) (tStart t0 : Int)
    (hwin : window ≤ cleanupWindow)
    (hmono : timesMono tStart es)
    (hkey : keyUses key limit window es) :
    ((keySuccTimes (rlRun (fun _ => []) es).2 key).filter
        fun s => decide (t0 < s) && decide (s ≤ t0 + window)).length ≤ limit := by
  have h := rl_invariant_bound key limit window hwin es (fun _ => []) [] tStart hmono hkey
      (by intro s hs; simp at hs) (by simp) (by intro u; simp) t0
  simpa using h

/-- The login rate-limit trace of scenario S2: six `Allow` calls for the same
key with limit 5 and a one-minute window, plus a sweeper pass. -/
def loginTrace : List RLEvent :=
  [RLEvent.allow "10.0.0.1:login" 5 60 0, RLEvent.allow "10.0.0.1:login" 5 60 10,
   RLEvent.allow "10.0.0.1:login" 5 60 20, RLEvent.allow "10.0.0.1:login" 5 60 30,
   RLEvent.allow "10.0.0.1:login" 5 60 40, RLEvent.allow "10.0.0.1:login" 5 60 50,
   RLEvent.sweep 300]

/-- Witness for `rl_rolling_window_bound` on the concrete login trace. -/
theorem rl_rolling_window_bound_witness :
    (60 : Int) ≤ cleanupWindow ∧
    timesMono 0 loginTrace ∧
    keyUses "10.0.0.1:login" 5 60 loginTrace ∧
    ((keySuccTimes (rlRun (fun _ => []) loginTrace).2 "10.0.0.1:login").filter
        fun s => decide ((-1 : Int) < s) && decide (s ≤ -1 + 60)).length ≤ 5 :=
  ⟨by decide,
   ⟨by decide, by decide, by decide, by decide, by decide, by decide, by decide, trivial⟩,
   ⟨fun _ => ⟨rfl, rfl⟩, fun _ => ⟨rfl, rfl⟩, fun _ => ⟨rfl, rfl⟩, fun _ => ⟨rfl, rfl⟩,
    fun _ => ⟨rfl, rfl⟩, fun _ => ⟨rfl, rfl⟩, trivial⟩,
   rl_rolling_window_bound "10.0.0.1:login" 5 60 loginTrace 0 (-1) (by decide)
     ⟨by decide, by decide, by decide, by decide, by decide, by decide, by decide, trivial⟩
     ⟨fun _ => ⟨rfl, rfl⟩, fun _ => ⟨rfl, rfl⟩, fun _ => ⟨rfl, rfl⟩, fun _ => ⟨rfl, rfl⟩,
      fun _ => ⟨rfl, rfl⟩, fun _ => ⟨rfl, rfl⟩, trivial⟩⟩

/-! Login endpoint (handlers package, `AuthHandler.HandleLogin`).  The
request body is embedded as `Option String`: `none` for a body that fails
JSON decoding, `some p` for a decoded `{"pin": p}`.  The handler consults the
rate limiter — which records the attempt — before the body is decoded or the
PIN compared; the result carries the HTTP status, the `success` field of the
JSON body when one is written, the limiter map after the call, and whether a
session was created. -/

structure LoginResult where
  status : Nat
  success : Option Bool
  rl : String → List Int
  sessionCreated : Bool

/-- `AuthHandler.HandleLogin`: method check, then rate limit with key
`ip+":login"`, limit 5, window one minute, then body decode, then PIN
comparison, then session creation. -/
def handleLogin (pin : String) (rl : String → List Int) (method ip : String)
    (body : Option String) (now : Int) : LoginResult :=
  if method ≠ "POST" then ⟨405, none, rl, false⟩
  else
    let res := RateLimiter.allow rl (ip ++ ":login") 5 60 now
    if res.1 = false then ⟨429, some false, res.2, false⟩
    else
      match body with
      | none => ⟨400, none, res.2, false⟩
      | some p => if p ≠ pin then ⟨401, some false, res.2, false⟩
                  else ⟨200, some true, res.2, true⟩

/-- Run a sequence of login requests from one client (same method POST, same
IP), returning the per-request results and the final limiter map. -/
def loginRun (pin ip : String) (rl : String → List Int) :
    List (Option String × Int) → List LoginResult × (String → List Int)
  | [] => ([], rl)
  | (b, t) :: rest =>
      let res := handleLogin pin rl "POST" ip b t
      let out := loginRun pin ip res.rl rest
      (res :: out.1, out.2)

/-- The limiter map after a granted call recorded `now` under the login key
of `ip` (the filter dropped nothing). -/
def recordLogin (rl : String → List Int) (ip : String) (now : Int) :
    String → List Int :=
  fun k => if k = ip ++ ":login" then rl (ip ++ ":login") ++ [now] else rl k

lemma allow_granted_eq (rl : String → List Int) (key : String) (now : Int)
    (h1 : ∀ t ∈ rl key, now - 60 < t) (h2 : (rl key).length < 5) :
    RateLimiter.allow rl key 5 60 now
      = (true, fun k => if k = key then rl key ++ [now] else rl k) := by
  have hf : (rl key).filter (fun t => decide (now - 60 < t)) = rl key :=
    List.filter_eq_self.mpr fun a ha => decide_eq_true (h1 a ha)
  simp only [RateLimiter.allow, hf]
  rw [if_neg (by omega)]

lemma allow_denied_eq (rl : String → List Int) (key : String) (now : Int)
    (h1 : ∀ t ∈ rl key, now - 60 < t) (h2 : 5 ≤ (rl key).length) :
    RateLimiter.allow rl key 5 60 now = (false, rl) := by
  have hf : (rl key).filter (fun t => decide (now - 60 < t)) = rl key :=
    List.filter_eq_self.mpr fun a ha => decide_eq_true (h1 a ha)
  simp only [RateLimiter.allow, hf]
  rw [if_pos h2]

lemma handleLogin_wrong_pin (pin ip p : String) (now : Int) (rl : String → List Int)
    (hp : p ≠ pin)
    (h1 : ∀ t ∈ rl (ip ++ ":login"), now - 60 < t)
    (h2 : (rl (ip ++ ":login")).length < 5) :
    handleLogin pin rl "POST" ip (some p) now
      = ⟨401, some false, recordLogin rl ip now, false⟩ := by
  simp only [handleLogin, allow_granted_eq rl (ip ++ ":login") now h1 h2]
  simp [hp]
  rfl

lemma handleLogin_rl_of_granted (pin ip : String) (b : Option String) (now : Int)
    (rl : String → List Int)
    (h1 : ∀ t ∈ rl (ip ++ ":login"), now - 60 < t)
    (h2 : (rl (ip ++ ":login")).length < 5) :
    (handleLogin pin rl "POST" ip b now).rl = recordLogin rl ip now := by
  simp only [handleLogin, allow_granted_eq rl (ip ++ ":login") now h1 h2]
  cases b with
  | none =>
      simp
      rfl
  | some p =>
      by_cases hp : p ≠ pin <;> simp [hp] <;> rfl

lemma handleLogin_limited (pin ip : String) (b : Option String) (now : Int)
    (rl : String → List Int)
    (h1 : ∀ t ∈ rl (ip ++ ":login"), now - 60 < t)
    (h2 : 5 ≤ (rl (ip ++ ":login")).length) :
    handleLogin pin rl "POST" ip b now = ⟨429, some false, rl, false⟩ := by
  simp only [handleLogin, allow_denied_eq rl (ip ++ ":login") now h1 h2]
  simp

/-- Claim C7.  Six consecutive wrong-PIN login requests from one IP within
one minute, starting from a fresh login bucket: the first five are answered
401 and the sixth 429 with a `success:false` body.  The sixth request's body
`b6` is universally quantified — malformed, wrong PIN or even the correct
PIN — because the 429 path returns before the body is decoded or the PIN
compared. -/
theorem login_bruteforce_cutoff (pin ip : String) (rl0 : String → List Int)
    (p1 p2 p3 p4 p5 : String) (b6 : Option String) (t1 t2 t3 t4 t5 t6 : Int)
    (hfresh : rl0 (ip ++ ":login") = [])
    (h12 : t1 ≤ t2) (h23 : t2 ≤ t3) (h34 : t3 ≤ t4) (h45 : t4 ≤ t5) (h56 : t5 ≤ t6)
    (hwin : t6 < t1 + 60)
    (hw1 : p1 ≠ pin) (hw2 : p2 ≠ pin) (hw3 : p3 ≠ pin) (hw4 : p4 ≠ pin)
    (hw5 : p5 ≠ pin) :
    ((loginRun pin ip rl0
        [(some p1, t1), (some p2, t2), (some p3, t3), (some p4, t4), (some p5, t5),
         (b6, t6)]).1.map LoginResult.status = [401, 401, 401, 401, 401, 429]) ∧
    (((loginRun pin ip rl0
        [(some p1, t1), (some p2, t2), (some p3, t3), (some p4, t4), (some p5, t5),
         (b6, t6)]).1.map LoginResult.success).getLast? = some (some false)) := by
  have k1 : (recordLogin rl0 ip t1) (ip ++ ":login") = [t1] := by
    simp [recordLogin, hfresh]
  have k2 : (recordLogin (recordLogin rl0 ip t1) ip t2) (ip ++ ":login") = [t1, t2] := by
    simp [recordLogin, hfresh]
  have k3 : (recordLogin (recordLogin (recordLogin rl0 ip t1) ip t2) ip t3)
      (ip ++ ":login") = [t1, t2, t3] := by
    simp [recordLogin, hfresh]
  have k4 : (recordLogin (recordLogin (recordLogin (recordLogin rl0 ip t1) ip t2) ip t3)
      ip t4) (ip ++ ":login") = [t1, t2, t3, t4] := by
    simp [recordLogin, hfresh]
  have k5 : (recordLogin (recordLogin (recordLogin (recordLogin (recordLogin rl0 ip t1)
      ip t2) ip t3) ip t4) ip t5) (ip ++ ":login") = [t1, t2, t3, t4, t5] := by
    simp [recordLogin, hfresh]
  have e1 := handleLogin_wrong_pin pin ip p1 t1 rl0 hw1
    (by rw [hfresh]; intro t ht; simp at ht) (by rw [hfresh]; simp)
  have e2 := handleLogin_wrong_pin pin ip p2 t2 (recordLogin rl0 ip t1) hw2
    (by rw [k1]; intro t ht; simp at ht; omega) (by rw [k1]; simp)
  have e3 := handleLogin_wrong_pin pin ip p3 t3
    (recordLogin (recordLogin rl0 ip t1) ip t2) hw3
    (by rw [k2]; intro t ht; simp at ht; rcases ht with rfl | rfl <;> omega)
    (by rw [k2]; simp)
  have e4 := handleLogin_wrong_pin pin ip p4 t4
    (recordLogin (recordLogin (recordLogin rl0 ip t1) ip t2) ip t3) hw4
    (by rw [k3]; intro t ht; simp at ht; rcases ht with rfl | rfl | rfl <;> omega)
    (by rw [k3]; simp)
  have e5 := handleLogin_wrong_pin pin ip p5 t5
    (recordLogin (recordLogin (recordLogin (recordLogin rl0 ip t1) ip t2) ip t3) ip t4)
    hw5
    (by rw [k4]; intro t ht; simp at ht; rcases ht with rfl | rfl | rfl | rfl <;> omega)
    (by rw [k4]; simp)
  have e6 := handleLogin_limited pin ip b6 t6
    (recordLogin (recordLogin (recordLogin (recordLogin (recordLogin rl0 ip t1) ip t2)
      ip t3) ip t4) ip t5)
    (by rw [k5]; intro t ht; simp at ht
        rcases ht with rfl | rfl | rfl | rfl | rfl <;> omega)
    (by rw [k5]; simp)
  constructor
  · simp [loginRun, e1, e2, e3, e4, e5, e6]
  · simp [loginRun, e1, e2, e3, e4, e5, e6]

/-- Witness for `login_bruteforce_cutoff` at PIN 274683, five wrong attempts
and a sixth correct-PIN attempt within one minute. -/
theorem login_bruteforce_cutoff_witness :
    ((fun _ : String => ([] : List Int)) ("10.0.0.1" ++ ":login") = []) ∧
    ("111111" ≠ "274683") ∧
    ((loginRun "274683" "10.0.0.1" (fun _ => [])
        [(some "111111", 0), (some "111111", 10), (some "111111", 20),
         (some "111111", 30), (some "111111", 40), (some "274683", 50)]).1.map
        LoginResult.status = [401, 401, 401, 401, 401, 429]) :=
  ⟨rfl, by decide,
   (login_bruteforce_cutoff "274683" "10.0.0.1" (fun _ => [])
      "111111" "111111" "111111" "111111" "111111" (some "274683")
      0 10 20 30 40 50 rfl (by decide) (by decide) (by decide) (by decide) (by decide)
      (by decide) (by decide) (by decide) (by decide) (by decide) (by decide)).1⟩

/-- Claim C10.  Any six login requests from one IP within a minute — whatever
their bodies (malformed JSON, wrong PIN or correct PIN) — leave the login
bucket holding exactly the five timestamps of the first five requests (each
of them consumed a slot because the limiter records the attempt before the
body is decoded), and the sixth request is answered 429. -/
theorem login_every_request_consumes_slot (pin ip : String) (rl0 : String → List Int)
    (b1 b2 b3 b4 b5 b6 : Option String) (t1 t2 t3 t4 t5 t6 : Int)
    (hfresh : rl0 (ip ++ ":login") = [])
    (h12 : t1 ≤ t2) (h23 : t2 ≤ t3) (h34 : t3 ≤ t4) (h45 : t4 ≤ t5) (h56 : t5 ≤ t6)
    (hwin : t6 < t1 + 60) :
    (((loginRun pin ip rl0
        [(b1, t1), (b2, t2), (b3, t3), (b4, t4), (b5, t5), (b6, t6)]).1.map
        LoginResult.status).getLast? = some 429) ∧
    ((loginRun pin ip rl0
        [(b1, t1), (b2, t2), (b3, t3), (b4, t4), (b5, t5), (b6, t6)]).2
        (ip ++ ":login") = [t1, t2, t3, t4, t5]) := by
  have k1 : (recordLogin rl0 ip t1) (ip ++ ":login") = [t1] := by
    simp [recordLogin, hfresh]
  have k2 : (recordLogin (recordLogin rl0 ip t1) ip t2) (ip ++ ":login") = [t1, t2] := by
    simp [recordLogin, hfresh]
  have k3 : (recordLogin (recordLogin (recordLogin rl0 ip t1) ip t2) ip t3)
      (ip ++ ":login") = [t1, t2, t3] := by
    simp [recordLogin, hfresh]
  have k4 : (recordLogin (recordLogin (recordLogin (recordLogin rl0 ip t1) ip t2) ip t3)
      ip t4) (ip ++ ":login") = [t1, t2, t3, t4] := by
    simp [recordLogin, hfresh]
  have k5 : (recordLogin (recordLogin (recordLogin (recordLogin (recordLogin rl0 ip t1)
      ip t2) ip t3) ip t4) ip t5) (ip ++ ":login") = [t1, t2, t3, t4, t5] := by
    simp [recordLogin, hfresh]
  have f1 := handleLogin_rl_of_granted pin ip b1 t1 rl0
    (by rw [hfresh]; intro t ht; simp at ht) (by rw [hfresh]; simp)
  have f2 := handleLogin_rl_of_granted pin ip b2 t2 (recordLogin rl0 ip t1)
    (by rw [k1]; intro t ht; simp at ht; omega) (by rw [k1]; simp)
  have f3 := handleLogin_rl_of_granted pin ip b3 t3
    (recordLogin (recordLogin rl0 ip t1) ip t2)
    (by rw [k2]; intro t ht; simp at ht; rcases ht with rfl | rfl <;> omega)
    (by rw [k2]; simp)
  have f4 := handleLogin_rl_of_granted pin ip b4 t4
    (recordLogin (recordLogin (recordLogin rl0 ip t1) ip t2) ip t3)
    (by rw [k3]; intro t ht; simp at ht; rcases ht with rfl | rfl | rfl <;> omega)
    (by rw [k3]; simp)
  have f5 := handleLogin_rl_of_granted pin ip b5 t5
    (recordLogin (recordLogin (recordLogin (recordLogin rl0 ip t1) ip t2) ip t3) ip t4)
    (by rw [k4]; intro t ht; simp at ht; rcases ht with rfl | rfl | rfl | rfl <;> omega)
    (by rw [k4]; simp)
  have e6 := handleLogin_limited pin ip b6 t6
    (recordLogin (recordLogin (recordLogin (recordLogin (recordLogin rl0 ip t1) ip t2)
      ip t3) ip t4) ip t5)
    (by rw [k5]; intro t ht; simp at ht
        rcases ht with rfl | rfl | rfl | rfl | rfl <;> omega)
    (by rw [k5]; simp)
  constructor
  · simp [loginRun, f1, f2, f3, f4, f5, e6]
  · simp [loginRun, f1, f2, f3, f4, f5, e6, k5]

/-- Witness for `login_every_request_consumes_slot`: six correct-PIN logins
within a minute; the sixth is answered 429. -/
theorem login_every_request_consumes_slot_witness :
    ((fun _ : String => ([] : List Int)) ("10.0.0.1" ++ ":login") = []) ∧
    (((loginRun "274683" "10.0.0.1" (fun _ => [])
        [(some "274683", 0), (some "274683", 10), (some "274683", 20),
         (some "274683", 30), (some "274683", 40), (some "274683", 50)]).1.map
        LoginResult.status).getLast? = some 429) :=
  ⟨rfl,
   (login_every_request_consumes_slot "274683" "10.0.0.1" (fun _ => [])
      (some "274683") (some "274683") (some "274683") (some "274683") (some "274683")
      (some "274683") 0 10 20 30 40 50 rfl (by decide) (by decide) (by decide)
      (by decide) (by decide) (by decide)).1⟩

end VBStream
